import Mathlib

/-!
# lotus: the Trees sealing task and the equivocated-block helpers

A shallow embedding of

* `provider/lpseal/task_trees.go`: `TreesTask.Do`, `TreesTask.CanAccept`,
  `TreesTask.TypeDetails`;
* `miner/equivocated.go`: `Miner.msgForEquivocatedBlk`, `Miner.eqBlock`,
  `Miner.equivocatedBlocks`;

followed by the properties proved about them.

Conventions of the embedding.

* A Go `error` is a `GoError`; `nil` is `none` in an `Option GoError`.
* A Go call that can end in a runtime panic returns a `GoResult`.
* Calls to collaborators (the store, the node API, the proof library) are
  recorded, in program order, in a list of effects returned next to the result.
* Big integers and `int`/`int64` values are `Int`; no arithmetic in the modelled
  code can leave the 64-bit range (the only increment is the loop counter of
  `equivocatedBlocks`, which stays below `num`).
-/

namespace Lotus

/-! ## Go runtime: errors, panics, slices -/

/-- The chain address of go-address: a protocol byte and a payload. -/
structure Address where
  protocolByte : Nat
  payload : String
deriving DecidableEq, Repr

/-- The constant `address.ID`: protocol byte of an ID address. -/
def Address.ID : Nat := 0

/-- The method `Address.Protocol()`. -/
def Address.Protocol (a : Address) : Nat := a.protocolByte

/-- The struct `types.Message`, with the fields in declaration order. -/
structure Message where
  Version : Nat
  To : Address
  From : Address
  Nonce : Nat
  Value : Int
  GasLimit : Int
  GasFeeCap : Int
  GasPremium : Int
  Method : Nat
  Params : List Nat
deriving DecidableEq, Repr

/-- An argument handed to a format verb of `xerrors.Errorf`. -/
inductive FmtArg where
  | int (n : Int)
  | json (m : Message)
deriving DecidableEq, Repr

/-- A Go `error` value.
* `foreign msg`: an error produced by a collaborator (store driver, node API,
  proof library);
* `errorf format args`: `xerrors.Errorf(format, args...)` without a `%w` verb;
* `wrapf format cause`: `xerrors.Errorf(format, cause)` whose format ends in `%w`. -/
inductive GoError where
  | foreign (msg : String)
  | errorf (format : String) (args : List FmtArg)
  | wrapf (format : String) (cause : GoError)
deriving DecidableEq, Repr

/-- The function `errors.Unwrap`: the cause wrapped by `%w`, if any. -/
def GoError.unwrap : GoError → Option GoError
  | .wrapf _ cause => some cause
  | _ => none

/-- A Go runtime panic. -/
inductive RuntimeFault where
  | indexOutOfRange (index : Nat) (length : Nat)
deriving DecidableEq, Repr

/-- Outcome of a Go call: it returns a value or ends in a runtime panic. -/
inductive GoResult (α : Type) where
  | returned (value : α)
  | panicked (fault : RuntimeFault)
deriving DecidableEq, Repr

/-- The slice index expression `xs[i]`: panics when `i` is not below `len(xs)`. -/
def sliceIndex {α : Type} (xs : List α) (i : Nat) : GoResult α :=
  match xs.get? i with
  | some x => .returned x
  | none => .panicked (.indexOutOfRange i xs.length)

/-! ## provider/lpseal/task_trees.go -/

/-- The type `harmonytask.TaskID`. -/
abbrev TaskID := Int

/-- The struct `resources.Resources`, restricted to the fields the task sets.
`Gpu` is a `float64` in Go; the only value the modelled code stores in it is the
literal 1, so it is kept as an integer. -/
structure Resources where
  Cpu : Int
  Gpu : Int
  Ram : Nat
deriving DecidableEq, Repr

/-- The struct `harmonytask.TaskTypeDetails`. `Follows` is a map keyed by the
predecessor type name; the embedding keeps its key list, `nil` being `[]`. -/
structure TaskTypeDetails where
  Max : Int
  Name : String
  Cost : Resources
  MaxFailures : Nat
  Follows : List String
deriving DecidableEq, Repr

/-- A row of the table `sectors_sdr_pipeline`, with the columns the query reads.
The task-id columns are nullable. -/
structure PipelineRow where
  sp_id : Int
  sector_number : Int
  reg_seal_proof : Int
  task_id_tree_r : Option Int
  task_id_tree_c : Option Int
  task_id_tree_d : Option Int
deriving DecidableEq, Repr

/-- A row of the table `sectors_sdr_initial_pieces`. -/
structure InitialPieceRow where
  sp_id : Int
  sector_number : Int
  piece_index : Int
  piece_cid : String
  piece_size : Int
deriving DecidableEq, Repr

/-- The two `SELECT` statements issued by `TreesTask.Do`, with their arguments. -/
inductive Query where
  | sectorParams (taskID : TaskID)
  | pieces (spID : Int) (sectorNumber : Int)
deriving DecidableEq, Repr

/-- The store behind `harmonydb.DB`: the contents of the two tables and, for
every query, whether the driver fails on it (and with which error). -/
structure DB where
  sectors_sdr_pipeline : List PipelineRow
  sectors_sdr_initial_pieces : List InitialPieceRow
  fault : Query → Option GoError

/-- The element type of `sectorParamsArr`. -/
structure SectorParams where
  SpID : Int
  SectorNumber : Int
  RegSealProof : Int
deriving DecidableEq, Repr

/-- The element type of `pieces`. -/
structure Piece where
  PieceIndex : Int
  PieceCID : String
  PieceSize : Int
deriving DecidableEq, Repr

/-- The first `db.Select` of `Do`:
`SELECT sp_id, sector_number, reg_seal_proof FROM sectors_sdr_pipeline
 WHERE task_id_tree_r = $1 and task_id_tree_c = $1 and task_id_tree_d = $1`. -/
def selectSectorParams (db : DB) (taskID : TaskID) : Except GoError (List SectorParams) :=
  match db.fault (.sectorParams taskID) with
  | some err => .error err
  | none =>
    .ok ((db.sectors_sdr_pipeline.filter fun r =>
            r.task_id_tree_r == some taskID && r.task_id_tree_c == some taskID
              && r.task_id_tree_d == some taskID).map
          fun r => ⟨r.sp_id, r.sector_number, r.reg_seal_proof⟩)

/-- The second `db.Select` of `Do`:
`SELECT piece_index, piece_cid, piece_size FROM sectors_sdr_initial_pieces
 WHERE sp_id = $1 AND sector_number = $2`. -/
def selectPieces (db : DB) (spID sectorNumber : Int) : Except GoError (List Piece) :=
  match db.fault (.pieces spID sectorNumber) with
  | some err => .error err
  | none =>
    .ok ((db.sectors_sdr_initial_pieces.filter fun r =>
            r.sp_id == spID && r.sector_number == sectorNumber).map
          fun r => ⟨r.piece_index, r.piece_cid, r.piece_size⟩)

/-- The proof library used by `Do` (go-state-types and go-commp-utils), taken as
given: `RegisteredSealProof.SectorSize()` and `zerocomm.ZeroPieceCommitment`. -/
structure ProofLib where
  SectorSize : Int → Except GoError Nat
  ZeroPieceCommitment : Nat → String

/-- The method `abi.PaddedPieceSize.Unpadded()`: `p - (p / 128)`. -/
def Unpadded (p : Nat) : Nat := p - p / 128

/-- The conversion of an `int64` to `uint64` (`abi.ActorID(x)`, `abi.SectorNumber(x)`):
the value modulo 2^64. -/
def toUint64 (x : Int) : Nat := (x % 2 ^ 64).toNat

/-- The struct `abi.SectorID`; both fields are `uint64`. -/
structure SectorID where
  Miner : Nat
  Number : Nat
deriving DecidableEq, Repr

/-- The struct `storiface.SectorRef`. -/
structure SectorRef where
  ID : SectorID
  ProofType : Int
deriving DecidableEq, Repr

/-- Handle on the seal poller (`*SealPoller`); no modelled method reads it. -/
structure SealPoller where
  handle : Nat
deriving DecidableEq, Repr

/-- Handle on the sealing calls (`*lpffi.SealCalls`). -/
structure SealCalls where
  handle : Nat
deriving DecidableEq, Repr

/-- The struct `TreesTask`. -/
structure TreesTask where
  sp : SealPoller
  db : DB
  sc : SealCalls
  max : Int

/-- A call made by `Do` to a collaborator. -/
inductive DoEffect where
  | select (q : Query)
  | sectorSize (proof : Int)
  | zeroPieceCommitment (size : Nat)
deriving DecidableEq, Repr

/-- How a run of `Do` ends.
* `returned done err`: a `return done, err` statement was executed;
* `panicked f`: a runtime panic;
* `sealing sref commd`: control reached the sealing-call expression `t.sc.`
  with these values of `sref` and `commd`. The text of `Do` stops there, so
  nothing after that point is modelled. -/
inductive DoOutcome where
  | returned (done : Bool) (err : Option GoError)
  | panicked (fault : RuntimeFault)
  | sealing (sref : SectorRef) (commd : String)
deriving DecidableEq, Repr

/-- The method `TreesTask.Do`: the outcome and the collaborator calls made, in order. -/
def TreesTask.Do (lib : ProofLib) (t : TreesTask) (taskID : TaskID)
    (_stillOwned : Unit → Bool) : DoOutcome × List DoEffect :=
  let trace1 := [DoEffect.select (.sectorParams taskID)]
  match selectSectorParams t.db taskID with
  | .error err => (.returned false (some (.wrapf "getting sector params: %w" err)), trace1)
  | .ok sectorParamsArr =>
    if sectorParamsArr.length ≠ 1 then
      (.returned false
        (some (.errorf "expected 1 sector params, got %d" [.int sectorParamsArr.length])),
       trace1)
    else
      match sliceIndex sectorParamsArr 0 with
      | .panicked f => (.panicked f, trace1)
      | .returned sectorParams =>
        let trace2 :=
          trace1 ++ [DoEffect.select (.pieces sectorParams.SpID sectorParams.SectorNumber)]
        match selectPieces t.db sectorParams.SpID sectorParams.SectorNumber with
        | .error err => (.returned false (some (.wrapf "getting pieces: %w" err)), trace2)
        | .ok pieces =>
          if pieces.length > 0 then
            (.returned false (some (.errorf "todo sectors with data" [])), trace2)
          else
            let trace3 := trace2 ++ [DoEffect.sectorSize sectorParams.RegSealProof]
            match lib.SectorSize sectorParams.RegSealProof with
            | .error err =>
              (.returned false (some (.wrapf "getting sector size: %w" err)), trace3)
            | .ok ssize =>
              let commd := lib.ZeroPieceCommitment (Unpadded ssize)
              let sref : SectorRef :=
                { ID := { Miner := toUint64 sectorParams.SpID
                          Number := toUint64 sectorParams.SectorNumber }
                  ProofType := sectorParams.RegSealProof }
              (.sealing sref commd, trace3 ++ [DoEffect.zeroPieceCommitment (Unpadded ssize)])

/-- The method `TreesTask.CanAccept`: `id := ids[0]; return &id, nil`.
The returned pair is the id pointer (`none` for `nil`) and the error. -/
def TreesTask.CanAccept {Engine : Type} (_t : TreesTask) (ids : List TaskID)
    (_engine : Engine) : GoResult (Option TaskID × Option GoError) :=
  match sliceIndex ids 0 with
  | .panicked f => .panicked f
  | .returned id => .returned (some id, none)

/-- The method `TreesTask.TypeDetails`. -/
def TreesTask.TypeDetails (t : TreesTask) : TaskTypeDetails :=
  { Max := t.max
    Name := "SDRTrees"
    Cost := { Cpu := 1, Gpu := 1, Ram := 8000 }
    MaxFailures := 3
    Follows := [] }

/-- Whether a resource cost fits into a remaining capacity, component by component. -/
def Resources.fits (cost capacity : Resources) : Prop :=
  cost.Cpu ≤ capacity.Cpu ∧ cost.Gpu ≤ capacity.Gpu ∧ cost.Ram ≤ capacity.Ram

instance (cost capacity : Resources) : Decidable (cost.fits capacity) := by
  unfold Resources.fits; infer_instance

/-! ## miner/equivocated.go -/

/-- The constant `WARMUP_EPOCHS`. -/
def WARMUP_EPOCHS : Nat := 7

/-- The constant `EQ_BLK_POOL`. -/
def EQ_BLK_POOL : Nat := 10

/-- The struct `types.SignedMessage`. -/
structure SignedMessage where
  Message : Message
  Signature : String
deriving DecidableEq, Repr

/-- The type `types.TipSetKey`: a list of block CIDs. -/
abbrev TipSetKey := List String

/-- The value `types.EmptyTSK`. -/
def EmptyTSK : TipSetKey := []

/-- The function `types.NewTipSetKey(cids...)`. -/
def NewTipSetKey (cids : List String) : TipSetKey := cids

/-- The struct `types.BlockHeader`: the fields read by `eqBlock`; `Rest` stands
for the remaining fields, which `eqBlock` only copies. -/
structure BlockHeader where
  Miner : Address
  Ticket : String
  ElectionProof : String
  BeaconEntries : List String
  WinPoStProof : List String
  Parents : List String
  Height : Int
  Timestamp : Nat
  Rest : String
deriving DecidableEq, Repr

/-- The struct `types.BlockMsg`. -/
structure BlockMsg where
  Header : BlockHeader
  BlsMessages : List String
  SecpkMessages : List String
deriving DecidableEq, Repr

/-- The struct `types.FullBlock`. -/
structure FullBlock where
  Header : BlockHeader
  BlsMessages : List Message
  SecpkMessages : List SignedMessage
deriving DecidableEq, Repr

/-- The struct `api.BlockTemplate`, with the fields `eqBlock` sets. -/
structure BlockTemplate where
  Miner : Address
  Parents : TipSetKey
  Ticket : String
  Eproof : String
  BeaconValues : List String
  Messages : List SignedMessage
  Epoch : Int
  Timestamp : Nat
  WinningPoStProof : List String
deriving DecidableEq, Repr

/-- The node API used by the miner (`m.api`): every method is a function of its
arguments that may fail. A method that succeeds returns a non-nil value. The
`spec` argument of `GasEstimateMessageGas` is always `nil` and is left out.
One run of `msgForEquivocatedBlk` calls each method at most once, so a node
whose answers change over time is covered by choosing the functions. -/
structure NodeAPI where
  WalletDefaultAddress : Except GoError Address
  MpoolGetNonce : Address → Except GoError Nat
  StateAccountKey : Address → TipSetKey → Except GoError Address
  GasEstimateMessageGas : Message → TipSetKey → Except GoError Message
  WalletBalance : Address → Except GoError Int
  WalletSignMessage : Address → Message → Except GoError SignedMessage
  MinerCreateBlock : BlockTemplate → Except GoError BlockMsg

/-- Declarations of the chain packages used by `msgForEquivocatedBlk`, taken as
given: `builtin.BurntFundsActorAddr`, `builtin.MethodSend` and the method
`types.Message.RequiredFunds()`. -/
structure ChainLib where
  BurntFundsActorAddr : Address
  MethodSend : Nat
  RequiredFunds : Message → Int

/-- The struct `Miner`, restricted to the field the modelled methods use. -/
structure Miner where
  api : NodeAPI

/-- A call recorded while `msgForEquivocatedBlk` and `eqBlock` run: the node
API calls and the warning logged by `msgForEquivocatedBlk`. -/
inductive MinerEffect where
  | WalletDefaultAddress
  | MpoolGetNonce (addr : Address)
  | StateAccountKey (addr : Address) (tsk : TipSetKey)
  | GasEstimateMessageGas (msg : Message) (tsk : TipSetKey)
  | Warnf (src dst : Address)
  | WalletBalance (addr : Address)
  | WalletSignMessage (addr : Address) (msg : Message)
  | MinerCreateBlock (tmpl : BlockTemplate)
deriving DecidableEq, Repr

/-- Whether a recorded call is a call of `WalletSignMessage`. -/
def MinerEffect.isSign : MinerEffect → Bool
  | .WalletSignMessage _ _ => true
  | _ => false

/-- The message literal built by `msgForEquivocatedBlk`, after the three gas
fields have been set to zero. -/
def newEquivocationMessage (lib : ChainLib) (addr : Address) (nonce : Nat) (i : Int) : Message :=
  { Version := 0
    To := lib.BurntFundsActorAddr
    From := addr
    Nonce := nonce
    Value := i
    GasLimit := 0
    GasFeeCap := 0
    GasPremium := 0
    Method := lib.MethodSend
    Params := [] }

/-- The statement `if msg.From.Protocol() == address.ID { msg.From = fromA }`. -/
def adjustFrom (msg : Message) (fromA : Address) : Message :=
  if msg.From.Protocol = Address.ID then { msg with From := fromA } else msg

/-- The method `Miner.msgForEquivocatedBlk`: the result and the calls made, in order. -/
def Miner.msgForEquivocatedBlk (lib : ChainLib) (m : Miner) (i : Int) :
    Except GoError SignedMessage × List MinerEffect :=
  let trace1 := [MinerEffect.WalletDefaultAddress]
  match m.api.WalletDefaultAddress with
  | .error err => (.error err, trace1)
  | .ok addr =>
    let trace2 := trace1 ++ [MinerEffect.MpoolGetNonce addr]
    match m.api.MpoolGetNonce addr with
    | .error err => (.error err, trace2)
    | .ok nonce =>
      let msg := newEquivocationMessage lib addr nonce i
      let inMsg := msg
      let trace3 := trace2 ++ [MinerEffect.StateAccountKey msg.From EmptyTSK]
      match m.api.StateAccountKey msg.From EmptyTSK with
      | .error err => (.error (.wrapf "getting key address: %w" err), trace3)
      | .ok fromA =>
        let trace4 := trace3 ++ [MinerEffect.GasEstimateMessageGas msg EmptyTSK]
        match m.api.GasEstimateMessageGas msg EmptyTSK with
        | .error err => (.error (.wrapf "GasEstimateMessageGas error: %w" err), trace4)
        | .ok msg =>
          if msg.GasPremium > msg.GasFeeCap then
            (.error (.errorf
              "After estimation, GasPremium is greater than GasFeeCap, inmsg: %s, outmsg: %s"
              [.json inMsg, .json msg]), trace4)
          else
            let trace5 :=
              if msg.From.Protocol = Address.ID then
                trace4 ++ [MinerEffect.Warnf msg.From fromA]
              else trace4
            let msg := adjustFrom msg fromA
            let trace6 := trace5 ++ [MinerEffect.WalletBalance msg.From]
            match m.api.WalletBalance msg.From with
            | .error err =>
              (.error (.wrapf "mpool push: getting origin balance: %w" err), trace6)
            | .ok b =>
              let requiredFunds := msg.Value + lib.RequiredFunds msg
              if b < requiredFunds then
                (.error (.errorf "mpool push: not enough funds: %s < %s"
                  [.int b, .int requiredFunds]), trace6)
              else
                (m.api.WalletSignMessage addr msg,
                 trace6 ++ [MinerEffect.WalletSignMessage addr msg])

/-- The method `Miner.eqBlock`. The argument `blk` and its header are non-nil. -/
def Miner.eqBlock (lib : ChainLib) (m : Miner) (blk : BlockMsg) (i : Int) :
    Except GoError FullBlock × List MinerEffect :=
  let hcp := blk.Header
  let secpkMessages : List SignedMessage := []
  let blsMessages : List Message := []
  match m.msgForEquivocatedBlk lib i with
  | (.error err, trace1) => (.error err, trace1)
  | (.ok eqMsg, trace1) =>
    let blsMessages := blsMessages ++ [eqMsg.Message]
    let tmpl : BlockTemplate :=
      { Miner := hcp.Miner
        Parents := NewTipSetKey hcp.Parents
        Ticket := hcp.Ticket
        Eproof := hcp.ElectionProof
        BeaconValues := hcp.BeaconEntries
        Messages := [eqMsg]
        Epoch := hcp.Height
        Timestamp := hcp.Timestamp
        WinningPoStProof := hcp.WinPoStProof }
    let trace2 := trace1 ++ [MinerEffect.MinerCreateBlock tmpl]
    match m.api.MinerCreateBlock tmpl with
    | .error err => (.error err, trace2)
    | .ok blockMsg => (.ok ⟨blockMsg.Header, blsMessages, secpkMessages⟩, trace2)

/-- The loop of `equivocatedBlocks`, entered with counter `i`, the blocks
appended so far and the `eqBlock` calls made so far (each with its index and
the node API calls it made). -/
def Miner.equivocatedBlocksLoop (lib : ChainLib) (m : Miner) (blk : BlockMsg) (num : Int)
    (i : Int) (blks : List FullBlock) (calls : List (Int × List MinerEffect)) :
    Except GoError (List FullBlock) × List (Int × List MinerEffect) :=
  if i < num then
    match m.eqBlock lib blk i with
    | (.error err, trace) => (.error err, calls ++ [(i, trace)])
    | (.ok b, trace) =>
      Miner.equivocatedBlocksLoop lib m blk num (i + 1) (blks ++ [b]) (calls ++ [(i, trace)])
  else (.ok blks, calls)
termination_by (num - i).toNat
decreasing_by omega

/-- The method `Miner.equivocatedBlocks`: the result (`return nil, err` is
`.error err`) and the `eqBlock` calls made, in order. -/
def Miner.equivocatedBlocks (lib : ChainLib) (m : Miner) (blk : BlockMsg) (num : Int) :
    Except GoError (List FullBlock) × List (Int × List MinerEffect) :=
  Miner.equivocatedBlocksLoop lib m blk num 0 [] []

/-! ## Task life cycle and Failure Tracker -/

/-- Modelled from the spec: the task states of the data model (section 3). The
engine that drives them (package harmonytask) is not among the sources. -/
inductive TaskState where
  | Pending
  | Claimed
  | Running
  | Done
  | Failed
deriving DecidableEq, Repr

/-- Modelled from the spec: the terminal states, Done and Failed (sections 3, 4.5);
the engine is not among the sources. -/
def TaskState.terminal : TaskState → Bool
  | .Done => true
  | .Failed => true
  | _ => false

/-- Modelled from the spec: a task row of the store (section 3), with the fields the
Failure Tracker and discovery read; the engine is not among the sources. -/
structure Task where
  id : TaskID
  typeName : String
  state : TaskState
  owner : Option Nat
  failureCount : Nat
deriving DecidableEq, Repr

/-- Modelled from the spec: the Failure Tracker rule (section 4.5), absent from the
sources: "increment failure count; if count ≤ max-failure bound, release lease
and return task to Pending; if count exceeds the bound, transition to terminal
Failed". -/
def failureTracker (bound : Nat) (t : Task) : Task :=
  let count := t.failureCount + 1
  if count ≤ bound then
    { t with failureCount := count, state := .Pending, owner := none }
  else
    { t with failureCount := count, state := .Failed, owner := none }

/-- Modelled from the spec: what can happen to a task (sections 4.1, 4.3, 4.5);
the engine is not among the sources. -/
inductive EngineEvent where
  | claim (worker : Nat)
  | start
  | bodyDone
  | bodyNotDone
  | bodyError
  | leaseExpired
deriving DecidableEq, Repr

/-- Modelled from the spec: one step of the task life cycle (sections 4.1, 4.3, 4.5),
absent from the sources. A claim moves a Pending task to Claimed; the engine
then runs the body; success makes the task Done, "not finished" returns it to
Pending, an error goes to the Failure Tracker; an expired lease makes the task
eligible again. An event that does not apply to the state changes nothing. -/
def engineStep (bound : Nat) (t : Task) : EngineEvent → Task
  | .claim w =>
    match t.state with
    | .Pending => { t with state := .Claimed, owner := some w }
    | _ => t
  | .start =>
    match t.state with
    | .Claimed => { t with state := .Running }
    | _ => t
  | .bodyDone =>
    match t.state with
    | .Running => { t with state := .Done, owner := none }
    | _ => t
  | .bodyNotDone =>
    match t.state with
    | .Running => { t with state := .Pending, owner := none }
    | _ => t
  | .bodyError =>
    match t.state with
    | .Running => failureTracker bound t
    | _ => t
  | .leaseExpired =>
    match t.state with
    | .Claimed => { t with state := .Pending, owner := none }
    | .Running => { t with state := .Pending, owner := none }
    | _ => t

/-- Modelled from the spec: a run of the life cycle over a sequence of events;
the engine is not among the sources. -/
def engineRun (bound : Nat) (t : Task) (events : List EngineEvent) : Task :=
  events.foldl (engineStep bound) t

/-- Modelled from the spec: discovery (section 4.1) lists the Pending tasks of a
type; the engine is not among the sources. -/
def discover (store : List Task) (typeName : String) : List TaskID :=
  (store.filter fun t => t.state == .Pending && t.typeName == typeName).map Task.id

/-- Modelled from the spec: a claim attempt (section 4.1) picks at most one of the
discovered candidates, or none when there is no eligible task; the engine is not
among the sources. -/
def claimAttempt (store : List Task) (typeName : String) : Option TaskID :=
  (discover store typeName).head?

/-- Modelled from the spec: one failed execution of a task: a worker claims it,
the engine runs the body, the body returns an error (sections 4.1, 4.5). -/
def failedExecution (worker : Nat) : List EngineEvent :=
  [.claim worker, .start, .bodyError]

/-- A freshly inserted task of the Trees type: Pending, failure count 0. -/
def freshTask (t : TreesTask) (id : TaskID) : Task :=
  { id := id
    typeName := t.TypeDetails.Name
    state := .Pending
    owner := none
    failureCount := 0 }

/-! ## Concrete inputs used to evaluate the definitions -/

/-- A store with one pipeline row per interesting case: task 7 has one sector
without pieces, task 8 one sector with a piece, task 9 two sectors, task 10 a
sector with an unknown seal proof; the sector-parameters query of task 11 and
the pieces query of sector (1, 12) fail in the driver. -/
def sampleDB : DB where
  sectors_sdr_pipeline :=
    [ ⟨1, 5, 8, some 7, some 7, some 7⟩,
      ⟨1, 6, 8, some 8, some 8, some 8⟩,
      ⟨1, 10, 8, some 9, some 9, some 9⟩,
      ⟨1, 11, 8, some 9, some 9, some 9⟩,
      ⟨1, 12, 8, some 12, some 12, some 12⟩,
      ⟨1, 13, 99, some 10, some 10, some 10⟩,
      ⟨1, 14, 8, some 13, some 13, none⟩ ]
  sectors_sdr_initial_pieces := [ ⟨1, 6, 0, "baga-piece", 2048⟩ ]
  fault := fun q =>
    match q with
    | .sectorParams 11 => some (.foreign "connection reset")
    | .pieces 1 12 => some (.foreign "deadline exceeded")
    | _ => none

/-- A proof library knowing seal proof 8 (32 GiB sectors) only. -/
def sampleProofLib : ProofLib where
  SectorSize := fun p => if p = 8 then .ok 34359738368 else .error (.foreign "unsupported proof type")
  ZeroPieceCommitment := fun n => "zerocomm-" ++ toString n

/-- A Trees task over the sample store, with concurrency limit 4. -/
def sampleTreesTask : TreesTask := ⟨⟨0⟩, sampleDB, ⟨0⟩, 4⟩

/-- Constants of the chain packages: the burnt-funds actor is the ID address
f099, `MethodSend` is method 0, and the required funds of a message are
`GasFeeCap * GasLimit`. -/
def sampleChainLib : ChainLib where
  BurntFundsActorAddr := ⟨0, "99"⟩
  MethodSend := 0
  RequiredFunds := fun msg => msg.GasFeeCap * msg.GasLimit

/-- A header of a block mined at height 20. -/
def sampleHeader : BlockHeader :=
  { Miner := ⟨0, "1000"⟩
    Ticket := "ticket"
    ElectionProof := "eproof"
    BeaconEntries := ["beacon"]
    WinPoStProof := ["post"]
    Parents := ["parent-a", "parent-b"]
    Height := 20
    Timestamp := 600
    Rest := "" }

/-- A node whose wallet holds `balance`: the default address is a secp256k1
address, gas estimation sets limit 1, fee cap 0 and premium `premium`, and signing and block
creation succeed. -/
def sampleAPI (balance : Int) (premium : Int) : NodeAPI where
  WalletDefaultAddress := .ok ⟨1, "wallet"⟩
  MpoolGetNonce := fun _ => .ok 3
  StateAccountKey := fun a _ => .ok a
  GasEstimateMessageGas := fun msg _ => .ok { msg with GasLimit := 1, GasPremium := premium }
  WalletBalance := fun _ => .ok balance
  WalletSignMessage := fun _ msg => .ok ⟨msg, "sig"⟩
  MinerCreateBlock := fun tmpl => .ok ⟨{ sampleHeader with Height := tmpl.Epoch }, [], []⟩

/-- The block message of the sample header. -/
def sampleBlockMsg : BlockMsg := ⟨sampleHeader, [], []⟩

/-- The message that `msgForEquivocatedBlk` signs on the sample node for index `i`. -/
def sampleSignedMessage (i : Int) : SignedMessage :=
  ⟨{ Version := 0, To := ⟨0, "99"⟩, From := ⟨1, "wallet"⟩, Nonce := 3, Value := i,
     GasLimit := 1, GasFeeCap := 0, GasPremium := 0, Method := 0, Params := [] }, "sig"⟩

/-- The block that `eqBlock` builds on the sample node for index `i`. -/
def sampleFullBlock (i : Int) : FullBlock :=
  ⟨sampleHeader, [(sampleSignedMessage i).Message], []⟩

/-! ## Properties of `TreesTask.CanAccept` and `TreesTask.TypeDetails` -/

theorem sliceIndex_zero_cons {α : Type} (x : α) (xs : List α) :
    sliceIndex (x :: xs) 0 = .returned x := rfl

theorem sliceIndex_nil {α : Type} (i : Nat) :
    sliceIndex ([] : List α) i = .panicked (.indexOutOfRange i 0) := rfl

/-- C1: on a non-empty candidate list `CanAccept` returns no error and the first
candidate, which is a member of the list; so whenever every candidate's cost
fits the worker's remaining capacity, the cost of the returned one fits too. -/
theorem CanAccept_returns_first_candidate {Engine : Type} (t : TreesTask)
    (ids : List TaskID) (engine : Engine) (hne : ids ≠ []) :
    ∃ id, t.CanAccept ids engine = .returned (some id, none) ∧ ids.head? = some id ∧ id ∈ ids ∧
      ∀ (cost : TaskID → Resources) (capacity : Resources),
        (∀ c ∈ ids, (cost c).fits capacity) → (cost id).fits capacity := by
  cases ids with
  | nil => exact absurd rfl hne
  | cons id rest =>
    refine ⟨id, rfl, rfl, List.mem_cons_self id rest, ?_⟩
    intro cost capacity hall
    exact hall id (List.mem_cons_self id rest)

theorem CanAccept_returns_first_candidate_witness :
    ([4, 9] : List TaskID) ≠ [] ∧
      ∃ id, sampleTreesTask.CanAccept [4, 9] () = .returned (some id, none) ∧
        ([4, 9] : List TaskID).head? = some id ∧ id ∈ ([4, 9] : List TaskID) ∧
        ∀ (cost : TaskID → Resources) (capacity : Resources),
          (∀ c ∈ ([4, 9] : List TaskID), (cost c).fits capacity) → (cost id).fits capacity :=
  ⟨by decide, CanAccept_returns_first_candidate sampleTreesTask [4, 9] () (by decide)⟩

/-- C2, as stated, fails: on the empty candidate list `CanAccept` of the sample
task does not return none without error; the index expression `ids[0]` ends in
an index-out-of-range panic. -/
theorem CanAccept_empty_list_not_none :
    sampleTreesTask.CanAccept [] () = .panicked (.indexOutOfRange 0 0) ∧
      sampleTreesTask.CanAccept [] () ≠ .returned (none, none) := by
  constructor
  · rfl
  · intro h
    cases h

/-- C2, amended: for every non-empty list of candidate task ids `CanAccept`
terminates normally and returns one id with no error: it raises no runtime
fault (the index 0 is in range) and it never returns none. -/
theorem CanAccept_nonempty_returns_normally {Engine : Type} (t : TreesTask)
    (ids : List TaskID) (engine : Engine) (hne : ids ≠ []) :
    (∃ id, t.CanAccept ids engine = .returned (some id, none)) ∧
      (∀ fault, t.CanAccept ids engine ≠ .panicked fault) ∧
      (∀ err, t.CanAccept ids engine ≠ .returned (none, err)) := by
  cases ids with
  | nil => exact absurd rfl hne
  | cons id rest =>
    refine ⟨⟨id, rfl⟩, ?_, ?_⟩
    · intro fault h
      cases h
    · intro err h
      cases h

theorem CanAccept_nonempty_returns_normally_witness :
    ([12] : List TaskID) ≠ [] ∧
      (∃ id, sampleTreesTask.CanAccept [12] () = .returned (some id, none)) ∧
      (∀ fault, sampleTreesTask.CanAccept [12] () ≠ .panicked fault) ∧
      (∀ err, sampleTreesTask.CanAccept [12] () ≠ .returned (none, err)) :=
  ⟨by decide, CanAccept_nonempty_returns_normally sampleTreesTask [12] () (by decide)⟩

/-- C3: whatever the fields of the task, `TypeDetails` declares the cost
cpu = 1, gpu = 1, memory = 8000, the max-failure bound 3, and the task's `max`
field as per-worker concurrency limit. -/
theorem TypeDetails_cost_failures_max (t : TreesTask) :
    t.TypeDetails.Cost = { Cpu := 1, Gpu := 1, Ram := 8000 } ∧
      t.TypeDetails.MaxFailures = 3 ∧ t.TypeDetails.Max = t.max :=
  ⟨rfl, rfl, rfl⟩

/-- C4, as stated, fails: the descriptor of the sample task does not list
"PreCommit2" as its predecessors. -/
theorem TypeDetails_follows_not_PreCommit2 :
    sampleTreesTask.TypeDetails.Follows ≠ ["PreCommit2"] := by
  decide

/-- C4, amended: for every task the descriptor returned by `TypeDetails` declares
no predecessor type at all (`Follows` is nil), under the name "SDRTrees". -/
theorem TypeDetails_follows_nothing (t : TreesTask) :
    t.TypeDetails.Follows = [] ∧ "PreCommit2" ∉ t.TypeDetails.Follows ∧
      t.TypeDetails.Name = "SDRTrees" := by
  refine ⟨rfl, ?_, rfl⟩
  show "PreCommit2" ∉ ([] : List String)
  exact List.not_mem_nil _

/-! ## Properties of `TreesTask.Do` -/

/-- The sector-parameters query is the first collaborator call of every run. -/
theorem Do_trace_head (lib : ProofLib) (t : TreesTask) (taskID : TaskID)
    (stillOwned : Unit → Bool) :
    (t.Do lib taskID stillOwned).2.head? = some (.select (.sectorParams taskID)) := by
  unfold TreesTask.Do
  simp only
  repeat' split
  all_goals rfl

/-- Path 1 of `Do`: the sector-parameters query fails. -/
theorem Do_params_query_error (lib : ProofLib) (t : TreesTask) (taskID : TaskID)
    (stillOwned : Unit → Bool) (cause : GoError)
    (hq : selectSectorParams t.db taskID = .error cause) :
    t.Do lib taskID stillOwned =
      (.returned false (some (.wrapf "getting sector params: %w" cause)),
       [.select (.sectorParams taskID)]) := by
  unfold TreesTask.Do
  simp [hq]

/-- Path 2 of `Do`: the number of sector-parameter rows is not 1. -/
theorem Do_params_count (lib : ProofLib) (t : TreesTask) (taskID : TaskID)
    (stillOwned : Unit → Bool) (rows : List SectorParams)
    (hq : selectSectorParams t.db taskID = .ok rows) (hn : rows.length ≠ 1) :
    t.Do lib taskID stillOwned =
      (.returned false (some (.errorf "expected 1 sector params, got %d" [.int rows.length])),
       [.select (.sectorParams taskID)]) := by
  unfold TreesTask.Do
  simp [hq, hn]

/-- Path 3 of `Do`: the pieces query fails. -/
theorem Do_pieces_query_error (lib : ProofLib) (t : TreesTask) (taskID : TaskID)
    (stillOwned : Unit → Bool) (sp : SectorParams) (cause : GoError)
    (hq : selectSectorParams t.db taskID = .ok [sp])
    (hp : selectPieces t.db sp.SpID sp.SectorNumber = .error cause) :
    t.Do lib taskID stillOwned =
      (.returned false (some (.wrapf "getting pieces: %w" cause)),
       [.select (.sectorParams taskID), .select (.pieces sp.SpID sp.SectorNumber)]) := by
  unfold TreesTask.Do
  simp [hq, hp, sliceIndex]

/-- Path 4 of `Do`: the sector has initial pieces. -/
theorem Do_sector_with_pieces (lib : ProofLib) (t : TreesTask) (taskID : TaskID)
    (stillOwned : Unit → Bool) (sp : SectorParams) (pieces : List Piece)
    (hq : selectSectorParams t.db taskID = .ok [sp])
    (hp : selectPieces t.db sp.SpID sp.SectorNumber = .ok pieces) (hne : pieces ≠ []) :
    t.Do lib taskID stillOwned =
      (.returned false (some (.errorf "todo sectors with data" [])),
       [.select (.sectorParams taskID), .select (.pieces sp.SpID sp.SectorNumber)]) := by
  have hlen : 0 < pieces.length := List.length_pos.mpr hne
  unfold TreesTask.Do
  simp [hq, hp, sliceIndex, hlen]

/-- Path 5 of `Do`: the seal proof has no sector size. -/
theorem Do_sector_size_error (lib : ProofLib) (t : TreesTask) (taskID : TaskID)
    (stillOwned : Unit → Bool) (sp : SectorParams) (cause : GoError)
    (hq : selectSectorParams t.db taskID = .ok [sp])
    (hp : selectPieces t.db sp.SpID sp.SectorNumber = .ok [])
    (hs : lib.SectorSize sp.RegSealProof = .error cause) :
    t.Do lib taskID stillOwned =
      (.returned false (some (.wrapf "getting sector size: %w" cause)),
       [.select (.sectorParams taskID), .select (.pieces sp.SpID sp.SectorNumber),
        .sectorSize sp.RegSealProof]) := by
  unfold TreesTask.Do
  simp [hq, hp, hs, sliceIndex]

/-- Path 6 of `Do`: control reaches the sealing call. -/
theorem Do_reaches_sealing (lib : ProofLib) (t : TreesTask) (taskID : TaskID)
    (stillOwned : Unit → Bool) (sp : SectorParams) (ssize : Nat)
    (hq : selectSectorParams t.db taskID = .ok [sp])
    (hp : selectPieces t.db sp.SpID sp.SectorNumber = .ok [])
    (hs : lib.SectorSize sp.RegSealProof = .ok ssize) :
    t.Do lib taskID stillOwned =
      (.sealing { ID := { Miner := toUint64 sp.SpID, Number := toUint64 sp.SectorNumber }
                  ProofType := sp.RegSealProof }
          (lib.ZeroPieceCommitment (Unpadded ssize)),
       [.select (.sectorParams taskID), .select (.pieces sp.SpID sp.SectorNumber),
        .sectorSize sp.RegSealProof, .zeroPieceCommitment (Unpadded ssize)]) := by
  unfold TreesTask.Do
  simp [hq, hp, hs, sliceIndex]

/-- A list of length 1 is a singleton. -/
theorem singleton_of_length_one {α : Type} (xs : List α) (h : xs.length = 1) :
    ∃ x, xs = [x] := by
  match xs, h with
  | [x], _ => exact ⟨x, rfl⟩

/-- Every run of `Do` takes one of the six paths. -/
theorem Do_paths (lib : ProofLib) (t : TreesTask) (taskID : TaskID) :
    (∃ cause, selectSectorParams t.db taskID = .error cause) ∨
    (∃ rows, selectSectorParams t.db taskID = .ok rows ∧ rows.length ≠ 1) ∨
    (∃ sp, selectSectorParams t.db taskID = .ok [sp] ∧
      ((∃ cause, selectPieces t.db sp.SpID sp.SectorNumber = .error cause) ∨
       (∃ pieces, selectPieces t.db sp.SpID sp.SectorNumber = .ok pieces ∧ pieces ≠ []) ∨
       (selectPieces t.db sp.SpID sp.SectorNumber = .ok [] ∧
         ((∃ cause, lib.SectorSize sp.RegSealProof = .error cause) ∨
          (∃ ssize, lib.SectorSize sp.RegSealProof = .ok ssize))))) := by
  cases hq : selectSectorParams t.db taskID with
  | error cause => exact Or.inl ⟨cause, rfl⟩
  | ok rows =>
    by_cases hn : rows.length = 1
    · obtain ⟨sp, rfl⟩ := singleton_of_length_one rows hn
      refine Or.inr (Or.inr ⟨sp, rfl, ?_⟩)
      cases hp : selectPieces t.db sp.SpID sp.SectorNumber with
      | error cause => exact Or.inl ⟨cause, rfl⟩
      | ok pieces =>
        cases pieces with
        | cons p ps => exact Or.inr (Or.inl ⟨p :: ps, rfl, List.cons_ne_nil p ps⟩)
        | nil =>
          refine Or.inr (Or.inr ⟨rfl, ?_⟩)
          cases hs : lib.SectorSize sp.RegSealProof with
          | error cause => exact Or.inl ⟨cause, rfl⟩
          | ok ssize => exact Or.inr ⟨ssize, rfl⟩
    · exact Or.inr (Or.inl ⟨rows, rfl, hn⟩)

/-- C5: when the sector-parameters query succeeds with a number of rows other
than 1, `Do` returns `done = false` with the error
"expected 1 sector params, got n", and the only collaborator call made is that
query: no pieces query, no sector-size or commitment call, no sealing call. -/
theorem Do_row_count_not_one (lib : ProofLib) (t : TreesTask) (taskID : TaskID)
    (stillOwned : Unit → Bool) (rows : List SectorParams)
    (hq : selectSectorParams t.db taskID = .ok rows) (hn : rows.length ≠ 1) :
    t.Do lib taskID stillOwned =
      (.returned false (some (.errorf "expected 1 sector params, got %d" [.int rows.length])),
       [.select (.sectorParams taskID)]) :=
  Do_params_count lib t taskID stillOwned rows hq hn

theorem Do_row_count_not_one_witness :
    selectSectorParams sampleTreesTask.db 9 = .ok [⟨1, 10, 8⟩, ⟨1, 11, 8⟩] ∧
      sampleTreesTask.Do sampleProofLib 9 (fun _ => true) =
        (.returned false (some (.errorf "expected 1 sector params, got %d" [.int 2])),
         [.select (.sectorParams 9)]) :=
  ⟨rfl,
   Do_row_count_not_one sampleProofLib sampleTreesTask 9 (fun _ => true)
     [⟨1, 10, 8⟩, ⟨1, 11, 8⟩] rfl (by decide)⟩

/-- C6: `Do` never returns an error together with `done = true`. Each of the five
error returns (failed sector-parameters query, row count other than 1, failed
pieces query, sector with pieces, seal proof without sector size) has
`done = false`, and the error of a failed store query (or size lookup) is the
cause wrapped in the returned error. -/
theorem Do_error_implies_not_done (lib : ProofLib) (t : TreesTask) (taskID : TaskID)
    (stillOwned : Unit → Bool) :
    (∀ done err trace,
        t.Do lib taskID stillOwned = (.returned done (some err), trace) → done = false) ∧
    (∀ cause, selectSectorParams t.db taskID = .error cause →
        ∃ err trace, t.Do lib taskID stillOwned = (.returned false (some err), trace) ∧
          err.unwrap = some cause) ∧
    (∀ rows, selectSectorParams t.db taskID = .ok rows → rows.length ≠ 1 →
        ∃ err trace, t.Do lib taskID stillOwned = (.returned false (some err), trace)) ∧
    (∀ sp cause, selectSectorParams t.db taskID = .ok [sp] →
        selectPieces t.db sp.SpID sp.SectorNumber = .error cause →
        ∃ err trace, t.Do lib taskID stillOwned = (.returned false (some err), trace) ∧
          err.unwrap = some cause) ∧
    (∀ sp pieces, selectSectorParams t.db taskID = .ok [sp] →
        selectPieces t.db sp.SpID sp.SectorNumber = .ok pieces → pieces ≠ [] →
        ∃ err trace, t.Do lib taskID stillOwned = (.returned false (some err), trace)) ∧
    (∀ sp cause, selectSectorParams t.db taskID = .ok [sp] →
        selectPieces t.db sp.SpID sp.SectorNumber = .ok [] →
        lib.SectorSize sp.RegSealProof = .error cause →
        ∃ err trace, t.Do lib taskID stillOwned = (.returned false (some err), trace) ∧
          err.unwrap = some cause) := by
  refine ⟨?_, ?_, ?_, ?_, ?_, ?_⟩
  · intro done err trace h
    rcases Do_paths lib t taskID with
      ⟨c, hq⟩ | ⟨rows, hq, hn⟩ | ⟨sp, hq, ⟨c, hp⟩ | ⟨ps, hp, hne⟩ | ⟨hp, ⟨c, hs⟩ | ⟨sz, hs⟩⟩⟩
    · rw [Do_params_query_error lib t taskID stillOwned c hq] at h
      cases h; rfl
    · rw [Do_params_count lib t taskID stillOwned rows hq hn] at h
      cases h; rfl
    · rw [Do_pieces_query_error lib t taskID stillOwned sp c hq hp] at h
      cases h; rfl
    · rw [Do_sector_with_pieces lib t taskID stillOwned sp ps hq hp hne] at h
      cases h; rfl
    · rw [Do_sector_size_error lib t taskID stillOwned sp c hq hp hs] at h
      cases h; rfl
    · rw [Do_reaches_sealing lib t taskID stillOwned sp sz hq hp hs] at h
      cases h
  · intro cause hq
    exact ⟨_, _, Do_params_query_error lib t taskID stillOwned cause hq, rfl⟩
  · intro rows hq hn
    exact ⟨_, _, Do_params_count lib t taskID stillOwned rows hq hn⟩
  · intro sp cause hq hp
    exact ⟨_, _, Do_pieces_query_error lib t taskID stillOwned sp cause hq hp, rfl⟩
  · intro sp pieces hq hp hne
    exact ⟨_, _, Do_sector_with_pieces lib t taskID stillOwned sp pieces hq hp hne⟩
  · intro sp cause hq hp hs
    exact ⟨_, _, Do_sector_size_error lib t taskID stillOwned sp cause hq hp hs, rfl⟩

theorem Do_error_implies_not_done_witness :
    (∃ err trace, sampleTreesTask.Do sampleProofLib 11 (fun _ => true) =
        (.returned false (some err), trace) ∧
        err.unwrap = some (.foreign "connection reset")) ∧
    (∃ err trace, sampleTreesTask.Do sampleProofLib 12 (fun _ => true) =
        (.returned false (some err), trace) ∧
        err.unwrap = some (.foreign "deadline exceeded")) ∧
    (∃ err trace, sampleTreesTask.Do sampleProofLib 10 (fun _ => true) =
        (.returned false (some err), trace) ∧
        err.unwrap = some (.foreign "unsupported proof type")) :=
  ⟨(Do_error_implies_not_done sampleProofLib sampleTreesTask 11 (fun _ => true)).2.1
      (.foreign "connection reset") rfl,
   (Do_error_implies_not_done sampleProofLib sampleTreesTask 12 (fun _ => true)).2.2.2.1
      ⟨1, 12, 8⟩ (.foreign "deadline exceeded") rfl rfl,
   (Do_error_implies_not_done sampleProofLib sampleTreesTask 10 (fun _ => true)).2.2.2.2.2
      ⟨1, 13, 99⟩ (.foreign "unsupported proof type") rfl rfl rfl⟩

/-- C8: when the sector-parameters query returns exactly one row and the pieces
query for that sector (same `sp_id` and `sector_number`) succeeds with at least
one row, `Do` returns `done = false` with the error "todo sectors with data"
after the two queries and nothing else (no sector-size, commitment or sealing
call). A run that computes the sector size or the zero-piece commitment, or
reaches the sealing call, is a run whose pieces query returned zero rows; and
with zero rows the sector size is indeed looked up. -/
theorem Do_only_empty_sector_proceeds (lib : ProofLib) (t : TreesTask) (taskID : TaskID)
    (stillOwned : Unit → Bool) (sp : SectorParams)
    (hq : selectSectorParams t.db taskID = .ok [sp]) :
    (∀ pieces, selectPieces t.db sp.SpID sp.SectorNumber = .ok pieces → pieces ≠ [] →
        t.Do lib taskID stillOwned =
          (.returned false (some (.errorf "todo sectors with data" [])),
           [.select (.sectorParams taskID), .select (.pieces sp.SpID sp.SectorNumber)])) ∧
    ((((∃ p, DoEffect.sectorSize p ∈ (t.Do lib taskID stillOwned).2) ∨
        (∃ n, DoEffect.zeroPieceCommitment n ∈ (t.Do lib taskID stillOwned).2) ∨
        (∃ sref commd, (t.Do lib taskID stillOwned).1 = .sealing sref commd)) →
        selectPieces t.db sp.SpID sp.SectorNumber = .ok [])) ∧
    (selectPieces t.db sp.SpID sp.SectorNumber = .ok [] →
        DoEffect.sectorSize sp.RegSealProof ∈ (t.Do lib taskID stillOwned).2 ∧
        ∀ ssize, lib.SectorSize sp.RegSealProof = .ok ssize →
          t.Do lib taskID stillOwned =
            (.sealing { ID := { Miner := toUint64 sp.SpID, Number := toUint64 sp.SectorNumber }
                        ProofType := sp.RegSealProof }
                (lib.ZeroPieceCommitment (Unpadded ssize)),
             [.select (.sectorParams taskID), .select (.pieces sp.SpID sp.SectorNumber),
              .sectorSize sp.RegSealProof, .zeroPieceCommitment (Unpadded ssize)])) := by
  refine ⟨?_, ?_, ?_⟩
  · intro pieces hp hne
    exact Do_sector_with_pieces lib t taskID stillOwned sp pieces hq hp hne
  · intro h
    cases hp : selectPieces t.db sp.SpID sp.SectorNumber with
    | error cause =>
      rw [Do_pieces_query_error lib t taskID stillOwned sp cause hq hp] at h
      simp at h
    | ok pieces =>
      cases pieces with
      | nil => rfl
      | cons p ps =>
        rw [Do_sector_with_pieces lib t taskID stillOwned sp (p :: ps) hq hp
          (List.cons_ne_nil p ps)] at h
        simp at h
  · intro hp
    cases hs : lib.SectorSize sp.RegSealProof with
    | error cause =>
      rw [Do_sector_size_error lib t taskID stillOwned sp cause hq hp hs]
      simp
    | ok ssize =>
      rw [Do_reaches_sealing lib t taskID stillOwned sp ssize hq hp hs]
      simp

theorem Do_only_empty_sector_proceeds_witness :
    sampleTreesTask.Do sampleProofLib 8 (fun _ => true) =
      (.returned false (some (.errorf "todo sectors with data" [])),
       [.select (.sectorParams 8), .select (.pieces 1 6)]) :=
  (Do_only_empty_sector_proceeds sampleProofLib sampleTreesTask 8 (fun _ => true) ⟨1, 6, 8⟩
    rfl).1 [⟨0, "baga-piece", 2048⟩] rfl (by decide)

/-! ## Properties of `Miner.msgForEquivocatedBlk` -/

/-- C10: `msgForEquivocatedBlk` returns a signed message only if all five node
queries succeeded, the gas-estimated message has `GasPremium ≤ GasFeeCap`, and
the balance of the sender is at least the message value plus its required
funds. If a query fails, or the estimated premium exceeds the fee cap, or the
balance is too low, it returns an error, no message, and `WalletSignMessage` is
not among the calls made. -/
theorem msgForEquivocatedBlk_guards (lib : ChainLib) (m : Miner) (i : Int) :
    (∀ sm, (m.msgForEquivocatedBlk lib i).1 = .ok sm →
      ∃ addr nonce fromA est b,
        m.api.WalletDefaultAddress = .ok addr ∧
        m.api.MpoolGetNonce addr = .ok nonce ∧
        m.api.StateAccountKey addr EmptyTSK = .ok fromA ∧
        m.api.GasEstimateMessageGas (newEquivocationMessage lib addr nonce i) EmptyTSK = .ok est ∧
        est.GasPremium ≤ est.GasFeeCap ∧
        m.api.WalletBalance (adjustFrom est fromA).From = .ok b ∧
        (adjustFrom est fromA).Value + lib.RequiredFunds (adjustFrom est fromA) ≤ b ∧
        m.api.WalletSignMessage addr (adjustFrom est fromA) = .ok sm) ∧
    (∀ e, m.api.WalletDefaultAddress = .error e →
      (m.msgForEquivocatedBlk lib i).1 = .error e ∧
      ∀ c ∈ (m.msgForEquivocatedBlk lib i).2, c.isSign = false) ∧
    (∀ addr e, m.api.WalletDefaultAddress = .ok addr → m.api.MpoolGetNonce addr = .error e →
      (m.msgForEquivocatedBlk lib i).1 = .error e ∧
      ∀ c ∈ (m.msgForEquivocatedBlk lib i).2, c.isSign = false) ∧
    (∀ addr nonce e, m.api.WalletDefaultAddress = .ok addr →
      m.api.MpoolGetNonce addr = .ok nonce →
      m.api.StateAccountKey addr EmptyTSK = .error e →
      (m.msgForEquivocatedBlk lib i).1 = .error (.wrapf "getting key address: %w" e) ∧
      ∀ c ∈ (m.msgForEquivocatedBlk lib i).2, c.isSign = false) ∧
    (∀ addr nonce fromA e, m.api.WalletDefaultAddress = .ok addr →
      m.api.MpoolGetNonce addr = .ok nonce →
      m.api.StateAccountKey addr EmptyTSK = .ok fromA →
      m.api.GasEstimateMessageGas (newEquivocationMessage lib addr nonce i) EmptyTSK = .error e →
      (m.msgForEquivocatedBlk lib i).1 = .error (.wrapf "GasEstimateMessageGas error: %w" e) ∧
      ∀ c ∈ (m.msgForEquivocatedBlk lib i).2, c.isSign = false) ∧
    (∀ addr nonce fromA est, m.api.WalletDefaultAddress = .ok addr →
      m.api.MpoolGetNonce addr = .ok nonce →
      m.api.StateAccountKey addr EmptyTSK = .ok fromA →
      m.api.GasEstimateMessageGas (newEquivocationMessage lib addr nonce i) EmptyTSK = .ok est →
      est.GasPremium > est.GasFeeCap →
      (∃ err, (m.msgForEquivocatedBlk lib i).1 = .error err) ∧
      ∀ c ∈ (m.msgForEquivocatedBlk lib i).2, c.isSign = false) ∧
    (∀ addr nonce fromA est e, m.api.WalletDefaultAddress = .ok addr →
      m.api.MpoolGetNonce addr = .ok nonce →
      m.api.StateAccountKey addr EmptyTSK = .ok fromA →
      m.api.GasEstimateMessageGas (newEquivocationMessage lib addr nonce i) EmptyTSK = .ok est →
      est.GasPremium ≤ est.GasFeeCap →
      m.api.WalletBalance (adjustFrom est fromA).From = .error e →
      (m.msgForEquivocatedBlk lib i).1 =
        .error (.wrapf "mpool push: getting origin balance: %w" e) ∧
      ∀ c ∈ (m.msgForEquivocatedBlk lib i).2, c.isSign = false) ∧
    (∀ addr nonce fromA est b, m.api.WalletDefaultAddress = .ok addr →
      m.api.MpoolGetNonce addr = .ok nonce →
      m.api.StateAccountKey addr EmptyTSK = .ok fromA →
      m.api.GasEstimateMessageGas (newEquivocationMessage lib addr nonce i) EmptyTSK = .ok est →
      est.GasPremium ≤ est.GasFeeCap →
      m.api.WalletBalance (adjustFrom est fromA).From = .ok b →
      b < (adjustFrom est fromA).Value + lib.RequiredFunds (adjustFrom est fromA) →
      (∃ err, (m.msgForEquivocatedBlk lib i).1 = .error err) ∧
      ∀ c ∈ (m.msgForEquivocatedBlk lib i).2, c.isSign = false) := by
  have hfrom : ∀ addr nonce, (newEquivocationMessage lib addr nonce i).From = addr :=
    fun _ _ => rfl
  refine ⟨?_, ?_, ?_, ?_, ?_, ?_, ?_, ?_⟩
  · intro sm h
    unfold Miner.msgForEquivocatedBlk at h
    simp only at h
    cases hA : m.api.WalletDefaultAddress with
    | error e => simp [hA] at h
    | ok addr =>
      cases hN : m.api.MpoolGetNonce addr with
      | error e => simp [hA, hN] at h
      | ok nonce =>
        cases hK : m.api.StateAccountKey addr EmptyTSK with
        | error e => simp [hA, hN, hfrom, hK] at h
        | ok fromA =>
          cases hG : m.api.GasEstimateMessageGas (newEquivocationMessage lib addr nonce i)
              EmptyTSK with
          | error e => simp [hA, hN, hfrom, hK, hG] at h
          | ok est =>
            by_cases hP : est.GasPremium > est.GasFeeCap
            · simp [hA, hN, hfrom, hK, hG, hP] at h
            · cases hB : m.api.WalletBalance (adjustFrom est fromA).From with
              | error e => simp [hA, hN, hfrom, hK, hG, hP, hB] at h
              | ok b =>
                by_cases hF : b < (adjustFrom est fromA).Value
                    + lib.RequiredFunds (adjustFrom est fromA)
                · simp [hA, hN, hfrom, hK, hG, hP, hB, hF] at h
                · simp [hA, hN, hfrom, hK, hG, hP, hB, hF] at h
                  exact ⟨addr, nonce, fromA, est, b, rfl, hN, hK, hG, not_lt.mp hP, hB,
                    not_lt.mp hF, h⟩
  · intro e hA
    unfold Miner.msgForEquivocatedBlk
    simp [hA, MinerEffect.isSign]
  · intro addr e hA hN
    unfold Miner.msgForEquivocatedBlk
    simp [hA, hN, MinerEffect.isSign]
  · intro addr nonce e hA hN hK
    unfold Miner.msgForEquivocatedBlk
    simp [hA, hN, hfrom, hK, MinerEffect.isSign]
  · intro addr nonce fromA e hA hN hK hG
    unfold Miner.msgForEquivocatedBlk
    simp [hA, hN, hfrom, hK, hG, MinerEffect.isSign]
  · intro addr nonce fromA est hA hN hK hG hP
    unfold Miner.msgForEquivocatedBlk
    simp [hA, hN, hfrom, hK, hG, hP, MinerEffect.isSign]
  · intro addr nonce fromA est e hA hN hK hG hP hB
    unfold Miner.msgForEquivocatedBlk
    have hP' : ¬ est.GasPremium > est.GasFeeCap := not_lt.mpr hP
    simp only [hA, hN, hfrom, hK, hG, hP', hB, if_false]
    refine ⟨trivial, ?_⟩
    split <;> simp [MinerEffect.isSign]
  · intro addr nonce fromA est b hA hN hK hG hP hB hF
    unfold Miner.msgForEquivocatedBlk
    have hP' : ¬ est.GasPremium > est.GasFeeCap := not_lt.mpr hP
    simp only [hA, hN, hfrom, hK, hG, hP', hB, hF, if_false, if_true]
    refine ⟨⟨_, rfl⟩, ?_⟩
    split <;> simp [MinerEffect.isSign]

theorem msgForEquivocatedBlk_guards_witness :
    (∃ err, (Miner.msgForEquivocatedBlk sampleChainLib ⟨sampleAPI 10 5⟩ 2).1 = .error err) ∧
      ∀ c ∈ (Miner.msgForEquivocatedBlk sampleChainLib ⟨sampleAPI 10 5⟩ 2).2,
        c.isSign = false :=
  (msgForEquivocatedBlk_guards sampleChainLib ⟨sampleAPI 10 5⟩ 2).2.2.2.2.2.1
    ⟨1, "wallet"⟩ 3 ⟨1, "wallet"⟩
    { newEquivocationMessage sampleChainLib ⟨1, "wallet"⟩ 3 2 with GasLimit := 1, GasPremium := 5 }
    rfl rfl rfl rfl (by decide)

/-! ## Properties of `Miner.equivocatedBlocks` -/

/-- The loop when every remaining `eqBlock` call succeeds: `n` is the number of
iterations left. -/
theorem equivocatedBlocksLoop_ok (lib : ChainLib) (m : Miner) (blk : BlockMsg) (num : Int)
    (f : Int → FullBlock) :
    ∀ (n : Nat) (i : Int) (blks : List FullBlock) (calls : List (Int × List MinerEffect)),
      (num - i).toNat = n →
      (∀ k, i ≤ k → k < num → (m.eqBlock lib blk k).1 = .ok (f k)) →
      (m.equivocatedBlocksLoop lib blk num i blks calls).1 =
          .ok (blks ++ (List.range n).map fun (j : Nat) => f (i + (j : Int))) ∧
        (m.equivocatedBlocksLoop lib blk num i blks calls).2.map Prod.fst =
          calls.map Prod.fst ++ (List.range n).map fun (j : Nat) => i + (j : Int) := by
  intro n
  induction n with
  | zero =>
    intro i blks calls hn _
    have hlt : ¬ i < num := by omega
    rw [Miner.equivocatedBlocksLoop]
    simp [hlt]
  | succ n ih =>
    intro i blks calls hn hall
    have hlt : i < num := by omega
    have hi := hall i le_rfl hlt
    rw [Miner.equivocatedBlocksLoop]
    rcases hE : m.eqBlock lib blk i with ⟨r, trace⟩
    rw [hE] at hi
    simp only at hi
    subst hi
    simp only [hlt, if_true]
    have hrec := ih (i + 1) (blks ++ [f i]) (calls ++ [(i, trace)]) (by omega)
      (fun k hk1 hk2 => hall k (by omega) hk2)
    rw [hrec.1, hrec.2]
    have e1 : ∀ j : Nat, i + 1 + (j : Int) = i + ((j + 1 : Nat) : Int) := by
      intro j; push_cast; ring
    simp [List.range_succ_eq_map, List.map_map, Function.comp_def, e1]

/-- The loop when the `eqBlock` call of index `k` is the first to fail: `n` is
the number of successful iterations before it. -/
theorem equivocatedBlocksLoop_fail (lib : ChainLib) (m : Miner) (blk : BlockMsg) (num : Int)
    (k : Int) (e : GoError) (hk : k < num) (he : (m.eqBlock lib blk k).1 = .error e) :
    ∀ (n : Nat) (i : Int) (blks : List FullBlock) (calls : List (Int × List MinerEffect)),
      (k - i).toNat = n → i ≤ k →
      (∀ j, i ≤ j → j < k → ∃ b, (m.eqBlock lib blk j).1 = .ok b) →
      (m.equivocatedBlocksLoop lib blk num i blks calls).1 = .error e ∧
        (m.equivocatedBlocksLoop lib blk num i blks calls).2.map Prod.fst =
          calls.map Prod.fst ++ (List.range (n + 1)).map fun (j : Nat) => i + (j : Int) := by
  intro n
  induction n with
  | zero =>
    intro i blks calls hn hik _
    have hki : k = i := by omega
    subst hki
    rw [Miner.equivocatedBlocksLoop]
    rcases hE : m.eqBlock lib blk k with ⟨r, trace⟩
    rw [hE] at he
    simp only at he
    subst he
    simp [hk, List.range_succ]
  | succ n ih =>
    intro i blks calls hn hik hall
    have hlt : i < k := by omega
    obtain ⟨b, hb⟩ := hall i le_rfl hlt
    rw [Miner.equivocatedBlocksLoop]
    rcases hE : m.eqBlock lib blk i with ⟨r, trace⟩
    rw [hE] at hb
    simp only at hb
    subst hb
    have hin : i < num := by omega
    simp only [hin, if_true]
    have hrec := ih (i + 1) (blks ++ [b]) (calls ++ [(i, trace)]) (by omega) (by omega)
      (fun j hj1 hj2 => hall j (by omega) hj2)
    rw [hrec.1, hrec.2]
    have e1 : ∀ j : Nat, i + 1 + (j : Int) = i + ((j + 1 : Nat) : Int) := by
      intro j; push_cast; ring
    refine ⟨rfl, ?_⟩
    rw [List.range_succ_eq_map (n + 1)]
    simp [List.map_map, Function.comp_def, e1]

/-- C9: if every `eqBlock` call of index `0 .. num-1` succeeds, `equivocatedBlocks`
returns no error and a list of exactly `max(num, 0)` blocks whose `k`-th element
is the result of `eqBlock` with index `k`, one call per index in increasing
order. If the call of index `k` is the first that fails, `equivocatedBlocks`
returns that call's error and no block list, and the `eqBlock` calls made are
those of the indices `0 .. k`: none for a later index. -/
theorem equivocatedBlocks_collects_in_order (lib : ChainLib) (m : Miner) (blk : BlockMsg)
    (num : Int) :
    (∀ f : Nat → FullBlock,
      (∀ k : Nat, (k : Int) < num → (m.eqBlock lib blk k).1 = .ok (f k)) →
      ∃ blks, (m.equivocatedBlocks lib blk num).1 = .ok blks ∧
        (blks.length : Int) = max num 0 ∧
        (∀ k : Nat, k < blks.length → blks.get? k = some (f k)) ∧
        (m.equivocatedBlocks lib blk num).2.map Prod.fst =
          (List.range blks.length).map fun (j : Nat) => (j : Int)) ∧
    (∀ (k : Nat) (e : GoError), (k : Int) < num →
      (∀ j : Nat, j < k → ∃ b, (m.eqBlock lib blk j).1 = .ok b) →
      (m.eqBlock lib blk k).1 = .error e →
      (m.equivocatedBlocks lib blk num).1 = .error e ∧
        (m.equivocatedBlocks lib blk num).2.map Prod.fst =
          (List.range (k + 1)).map (fun (j : Nat) => (j : Int)) ∧
        ∀ j : Int, (k : Int) < j → j ∉ (m.equivocatedBlocks lib blk num).2.map Prod.fst) := by
  constructor
  · intro f hall
    have h := equivocatedBlocksLoop_ok lib m blk num (fun z => f z.toNat) num.toNat 0 [] []
      (by simp)
      (fun k hk0 hk => by
        have h1 := hall k.toNat (by omega)
        have h2 : ((k.toNat : Nat) : Int) = k := Int.toNat_of_nonneg hk0
        rw [h2] at h1
        exact h1)
    refine ⟨(List.range num.toNat).map f, ?_, ?_, ?_, ?_⟩
    · unfold Miner.equivocatedBlocks
      rw [h.1]
      simp
    · simp
    · intro k hk
      simp at hk
      simp [List.get?_eq_getElem?, hk]
    · unfold Miner.equivocatedBlocks
      rw [h.2]
      simp
  · intro k e hk hall he
    have h := equivocatedBlocksLoop_fail lib m blk num k e hk he k 0 [] [] (by simp)
      (by omega)
      (fun j hj0 hj => by
        have h1 := hall j.toNat (by omega)
        have h2 : ((j.toNat : Nat) : Int) = j := Int.toNat_of_nonneg hj0
        rw [h2] at h1
        exact h1)
    have htrace : (m.equivocatedBlocks lib blk num).2.map Prod.fst =
        (List.range (k + 1)).map (fun (j : Nat) => (j : Int)) := by
      unfold Miner.equivocatedBlocks
      rw [h.2]
      simp
    refine ⟨h.1, htrace, ?_⟩
    intro j hj hmem
    rw [htrace] at hmem
    simp at hmem
    obtain ⟨a, ha, rfl⟩ := hmem
    omega

theorem equivocatedBlocks_collects_in_order_witness :
    (∃ blks, (Miner.equivocatedBlocks sampleChainLib ⟨sampleAPI 10 0⟩ sampleBlockMsg 2).1 =
          .ok blks ∧
        (blks.length : Int) = max 2 0 ∧
        (∀ k : Nat, k < blks.length → blks.get? k = some (sampleFullBlock k)) ∧
        (Miner.equivocatedBlocks sampleChainLib ⟨sampleAPI 10 0⟩ sampleBlockMsg 2).2.map Prod.fst =
          (List.range blks.length).map fun (j : Nat) => (j : Int)) ∧
    ((Miner.equivocatedBlocks sampleChainLib ⟨sampleAPI 1 0⟩ sampleBlockMsg 5).1 =
        .error (.errorf "mpool push: not enough funds: %s < %s" [.int 1, .int 2]) ∧
      (Miner.equivocatedBlocks sampleChainLib ⟨sampleAPI 1 0⟩ sampleBlockMsg 5).2.map Prod.fst =
        (List.range (2 + 1)).map (fun (j : Nat) => (j : Int)) ∧
      ∀ j : Int, ((2 : Nat) : Int) < j →
        j ∉ (Miner.equivocatedBlocks sampleChainLib ⟨sampleAPI 1 0⟩ sampleBlockMsg 5).2.map
          Prod.fst) :=
  ⟨(equivocatedBlocks_collects_in_order sampleChainLib ⟨sampleAPI 10 0⟩ sampleBlockMsg 2).1
      (fun k => sampleFullBlock k)
      (by
        intro k hk
        have hk2 : k < 2 := by omega
        interval_cases k <;> rfl),
   (equivocatedBlocks_collects_in_order sampleChainLib ⟨sampleAPI 1 0⟩ sampleBlockMsg 5).2 2
      (.errorf "mpool push: not enough funds: %s < %s" [.int 1, .int 2]) (by decide)
      (by
        intro j hj
        interval_cases j
        · exact ⟨sampleFullBlock 0, rfl⟩
        · exact ⟨sampleFullBlock 1, rfl⟩)
      rfl⟩

/-! ## Bounded retry of the Trees type -/

/-- A Failed task is changed by no event. -/
theorem engineStep_of_failed (bound : Nat) (t : Task) (ev : EngineEvent)
    (h : t.state = .Failed) : engineStep bound t ev = t := by
  cases ev <;> simp [engineStep, h]

/-- A Failed task is changed by no sequence of events. -/
theorem engineRun_of_failed (bound : Nat) (events : List EngineEvent) :
    ∀ t : Task, t.state = .Failed → engineRun bound t events = t := by
  induction events with
  | nil => intro t _; rfl
  | cons ev rest ih =>
    intro t h
    show engineRun bound (engineStep bound t ev) rest = t
    rw [engineStep_of_failed bound t ev h]
    exact ih t h

/-- A claim attempt on a store holding one Failed task finds no eligible task. -/
theorem claimAttempt_of_failed (x : Task) (typeName : String) (h : x.state = .Failed) :
    claimAttempt [x] typeName = none := by
  simp [claimAttempt, discover, h]

/-- A step keeps the failure count within the bound unless the task is Failed. -/
theorem engineStep_count_le (bound : Nat) (t : Task) (ev : EngineEvent)
    (h : t.state ≠ .Failed → t.failureCount ≤ bound) :
    (engineStep bound t ev).state ≠ .Failed → (engineStep bound t ev).failureCount ≤ bound := by
  cases ev <;> cases hs : t.state <;>
    simp [engineStep, hs, failureTracker] at * <;>
    first
      | exact h
      | (split <;> simp_all)

/-- A run keeps the failure count within the bound unless the task is Failed. -/
theorem engineRun_count_le (bound : Nat) (events : List EngineEvent) :
    ∀ t : Task, (t.state ≠ .Failed → t.failureCount ≤ bound) →
      (engineRun bound t events).state ≠ .Failed →
      (engineRun bound t events).failureCount ≤ bound := by
  induction events with
  | nil => intro t h; exact h
  | cons ev rest ih =>
    intro t h
    exact ih (engineStep bound t ev) (engineStep_count_le bound t ev h)

/-- C7, as stated, fails: with the bound 3 of the Trees type, after three
consecutive failed executions of a fresh task the Failure Tracker has returned
the task to Pending (count 3 does not exceed 3), and a fourth claim attempt
finds it. -/
theorem three_failures_leave_task_pending :
    (engineRun sampleTreesTask.TypeDetails.MaxFailures (freshTask sampleTreesTask 7)
        (failedExecution 1 ++ failedExecution 1 ++ failedExecution 1)).state ≠ .Failed ∧
      claimAttempt
        [engineRun sampleTreesTask.TypeDetails.MaxFailures (freshTask sampleTreesTask 7)
          (failedExecution 1 ++ failedExecution 1 ++ failedExecution 1)]
        sampleTreesTask.TypeDetails.Name ≠ none := by
  decide

/-- C7, amended: with the bound 3 of the Trees type, after three consecutive
failed executions a fresh task is Pending with failure count 3 and a claim
attempt still finds it; after the fourth consecutive failure (count 4 exceeds 3)
it is Failed, stays Failed under every later sequence of events, and no later
claim attempt finds it; in every non-terminal state reachable from the fresh
task the failure count is at most 3. -/
theorem bounded_retry_of_trees (t : TreesTask) (id : TaskID) (w1 w2 w3 w4 : Nat) :
    (engineRun t.TypeDetails.MaxFailures (freshTask t id)
        (failedExecution w1 ++ failedExecution w2 ++ failedExecution w3)).state = .Pending ∧
    (engineRun t.TypeDetails.MaxFailures (freshTask t id)
        (failedExecution w1 ++ failedExecution w2 ++ failedExecution w3)).failureCount = 3 ∧
    claimAttempt
        [engineRun t.TypeDetails.MaxFailures (freshTask t id)
          (failedExecution w1 ++ failedExecution w2 ++ failedExecution w3)]
        t.TypeDetails.Name = some id ∧
    (engineRun t.TypeDetails.MaxFailures (freshTask t id)
        (failedExecution w1 ++ failedExecution w2 ++ failedExecution w3
          ++ failedExecution w4)).state = .Failed ∧
    (∀ events : List EngineEvent,
      (engineRun t.TypeDetails.MaxFailures (freshTask t id)
        (failedExecution w1 ++ failedExecution w2 ++ failedExecution w3
          ++ failedExecution w4 ++ events)).state = .Failed ∧
      claimAttempt
        [engineRun t.TypeDetails.MaxFailures (freshTask t id)
          (failedExecution w1 ++ failedExecution w2 ++ failedExecution w3
            ++ failedExecution w4 ++ events)]
        t.TypeDetails.Name = none) ∧
    (∀ events : List EngineEvent,
      (engineRun t.TypeDetails.MaxFailures (freshTask t id) events).state.terminal = false →
      (engineRun t.TypeDetails.MaxFailures (freshTask t id) events).failureCount ≤ 3) := by
  have h4 : (engineRun t.TypeDetails.MaxFailures (freshTask t id)
      (failedExecution w1 ++ failedExecution w2 ++ failedExecution w3
        ++ failedExecution w4)).state = .Failed := rfl
  have hstay : ∀ events : List EngineEvent,
      (engineRun t.TypeDetails.MaxFailures (freshTask t id)
        (failedExecution w1 ++ failedExecution w2 ++ failedExecution w3
          ++ failedExecution w4 ++ events)).state = .Failed := by
    intro events
    unfold engineRun
    rw [List.foldl_append]
    exact (congrArg Task.state (engineRun_of_failed _ events _ h4)).trans h4
  refine ⟨rfl, rfl, ?_, h4, ?_, ?_⟩
  · simp [claimAttempt, discover, engineRun, failedExecution, engineStep, failureTracker,
      freshTask, TreesTask.TypeDetails]
  · intro events
    exact ⟨hstay events, claimAttempt_of_failed _ _ (hstay events)⟩
  · intro events hterm
    have hinv := engineRun_count_le t.TypeDetails.MaxFailures events (freshTask t id)
      (fun _ => Nat.zero_le _)
    apply hinv
    intro hF
    rw [hF] at hterm
    simp [TaskState.terminal] at hterm

end Lotus
